import Mathlib

/-!
Verification of the dependency graph resolution engine
(pkg/devspace/dependency/resolver.go) against its specification.

The resolver source (Resolve, buildDependencyQueue, resolveRecursive,
resolveDependency) is embedded function by function.  The collaborators that
live outside the embedded source — the graph store (graph.go), the identity
and download utilities (dependency/util), the configuration loader, the
generated-cache loader/saver, the cluster-client and docker-client factories —
are modelled from the specification at their interface boundary.  External
side effects (working directory lookup, download, config loading, client
construction, cache persistence) are supplied by an explicit environment
record so that runs are pure functions of the environment.
-/

namespace DevSpace

/-- generated.Config: the shared build cache.  Modelled by its object
identity (an address) plus the one field the resolver writes
(ActiveProfile); the cache contents are opaque to the graph core.  Address
equality models Go pointer equality. -/
structure GenConfig where
  addr : Nat
  ActiveProfile : String := ""
deriving DecidableEq

/-- latest.DevConfig: the interactive development section of a
configuration.  Modelled from the spec: its contents are opaque to the graph
core; only emptiness matters to the resolver. -/
structure DevConfig where
  entries : List String := []
deriving DecidableEq

/-- The empty dev config that resolveDependency force-assigns
(the Go literal latest.DevConfig{}). -/
def DevConfig.empty : DevConfig := {}

/-- latest.ImageConfig: one image-build entry; contents opaque here. -/
structure ImageConfig where
  Image : String := ""
deriving DecidableEq

/-- A project-level command parsed from a configuration; opaque here. -/
structure CommandDecl where
  Name : String := ""
  Command : String := ""
deriving DecidableEq

/-- latest.SourceConfig: where a dependency comes from.  Either a remote
reference (Git) or a local path; ConfigName optionally overrides the
configuration file name.  The empty string denotes an unset field. -/
structure SourceConfig where
  Git : String := ""
  Path : String := ""
  ConfigName : String := ""
deriving DecidableEq

/-- latest.DependencyConfig: one dependency declaration. -/
structure DependencyConfig where
  Source : SourceConfig
  Profile : String := ""
  SkipBuild : Option Bool := none
  IgnoreDependencies : Option Bool := none
  Namespace : String := ""
deriving DecidableEq

/-- latest.Config: the slice of a loaded configuration the resolver reads or
writes: nested dependency declarations, the dev section, the images map. -/
structure Config where
  Dependencies : List DependencyConfig := []
  Dev : DevConfig := {}
  Images : List (String × ImageConfig) := []
deriving DecidableEq

/-- kubectl.Client: a cluster client, observed through its current context
and bound namespace. -/
structure Client where
  currentContext : String
  Namespace : String
deriving DecidableEq

/-- loader.ConfigOptions: configuration-loading options. -/
structure ConfigOptions where
  Profile : String := ""
  GeneratedConfig : Option GenConfig := none
  ConfigPath : String := ""
  BasePath : String := ""
deriving DecidableEq

/-- docker.Client: opaque docker client handle. -/
structure DockerClient where
  addr : Nat := 0
deriving DecidableEq

/-- Errors.  The distinguished cyclic error (graph.go's cyclicError) is a
separate constructor so that the Go type assertion err.(*cyclicError) is
modelled as matching on the constructor; every other error is carried as its
rendered message.  errors.Wrap produces a plain message error, so a wrapped
cyclic error no longer matches the assertion, exactly as in Go. -/
inductive GoError where
  | cyclic (fromID toID : String)
  | msg (s : String)
deriving DecidableEq

/-- Render an error to its message.  Modelled from the spec: a cycle error
names the participating identities. -/
def GoError.render : GoError → String
  | .cyclic fromID toID => "cyclic dependency found between " ++ fromID ++ " and " ++ toID
  | .msg s => s

/-- errors.Wrap: prefix a context message ("context: cause"). -/
def wrap (e : GoError) (m : String) : GoError := .msg (m ++ ": " ++ e.render)

/-- The Go type assertion err.(*cyclicError). -/
def GoError.isCyclic : GoError → Bool
  | .cyclic _ _ => true
  | .msg _ => false

/-- Decidable equality of results, so that concrete runs can be checked by
evaluation. -/
instance exceptDecEq {ε α : Type} [DecidableEq ε] [DecidableEq α] :
    DecidableEq (Except ε α) := fun a b =>
  match a, b with
  | .error e, .error f =>
    if h : e = f then .isTrue (congrArg Except.error h)
    else .isFalse (fun hc => h (Except.error.inj hc))
  | .ok x, .ok y =>
    if h : x = y then .isTrue (congrArg Except.ok h)
    else .isFalse (fun hc => h (Except.ok.inj hc))
  | .error _, .ok _ => .isFalse Except.noConfusion
  | .ok _, .error _ => .isFalse Except.noConfusion

/-- A substring test used to state whether an identity is attached to an
error message. -/
def strContains (hay needle : String) : Prop := needle.data <:+: hay.data

instance (hay needle : String) : Decidable (strContains hay needle) := by
  unfold strContains; infer_instance

/-- pullsecrets.NewClient: registry client for pull secrets, storing the
configuration and client bindings it was constructed with. -/
structure RegistryClient where
  config : Config
  kubeClient : Option Client
  dockerClient : DockerClient
deriving DecidableEq

/-- build.NewController: build controller bound to a configuration, the
dependency's generated cache and its client. -/
structure BuildController where
  config : Config
  generated : GenConfig
  client : Option Client
deriving DecidableEq

/-- deploy.NewController: deploy controller bound to a configuration, the
dependency's generated cache and its client. -/
structure DeployController where
  config : Config
  generated : GenConfig
  client : Option Client
deriving DecidableEq

/-- The Dependency record, with the fields resolveDependency populates
(resolver.go lines 257-274).  generatedSaver is the generated-config loader
keyed by the dependency's profile, modelled by that profile string. -/
structure Dependency where
  ID : String
  LocalPath : String
  Config : Config
  Commands : List CommandDecl
  GeneratedConfig : GenConfig
  DependencyConfig : DependencyConfig
  DependencyCache : GenConfig
  kubeClient : Option Client
  registryClient : RegistryClient
  buildController : BuildController
  deployController : DeployController
  generatedSaver : String
deriving DecidableEq

/-! ## Graph store and cycle guard

Modelled from the spec (graph.go is not part of the embedded source):
an arena of nodes keyed by identity, edges stored as ordered identity lists
(declaration order). -/

/-- A graph node: identity, payload (none marks the root sentinel, otherwise
exactly one Dependency record), and the ordered outgoing edges. -/
structure Node where
  ID : String
  Data : Option Dependency
  Childs : List String
deriving DecidableEq

/-- The directed dependency graph: distinguished root identity plus the
identity-keyed arena of nodes, in insertion order. -/
structure Graph where
  RootID : String
  Nodes : List (String × Node)
deriving DecidableEq

def newNode (id : String) (data : Option Dependency) : Node :=
  { ID := id, Data := data, Childs := [] }

def newGraph (root : Node) : Graph :=
  { RootID := root.ID, Nodes := [(root.ID, root)] }

/-- Association-list lookup by identity. -/
def lookupNode : List (String × Node) → String → Option Node
  | [], _ => none
  | p :: rest, id => if p.1 == id then some p.2 else lookupNode rest id

def Graph.find (g : Graph) (id : String) : Option Node :=
  lookupNode g.Nodes id

def nodeKeys (l : List (String × Node)) : List String := l.map Prod.fst

def Graph.keys (g : Graph) : List String := nodeKeys g.Nodes

/-- Append an edge target to the child list of the node keyed parentID. -/
def addChildTo (l : List (String × Node)) (parentID childID : String) :
    List (String × Node) :=
  l.map (fun p =>
    (p.1, if p.1 == parentID
          then { p.2 with Childs := p.2.Childs ++ [childID] }
          else p.2))

/-- Drop every edge of one node that points to the identity id. -/
def delChilds (id : String) (n : Node) : Node :=
  { n with Childs := n.Childs.filter (fun c => c != id) }

/-- Delete the node keyed id and every edge pointing to it. -/
def delNodeEdges (l : List (String × Node)) (id : String) :
    List (String × Node) :=
  (l.filter (fun p => p.1 != id)).map (fun p => (p.1, delChilds id p.2))

/-- Bounded reachability over existing edges: is there a path of length
below the fuel from cur to target?  A simple path in the arena has length at
most the node count, so fuel (node count + 1) decides reachability. -/
def anyPath (g : Graph) : Nat → String → String → Bool
  | 0, _, _ => false
  | fuel + 1, cur, target =>
    if cur == target then true
    else
      match g.find cur with
      | none => false
      | some n => n.Childs.any (fun c => anyPath g fuel c target)

/-- Modelled from the spec: addEdge fails with a not-found error if either
identity is absent, with the distinguished cycle error if toID already has a
path to fromID, and otherwise records the edge. -/
def Graph.addEdge (g : Graph) (fromID toID : String) : Except GoError Graph :=
  match g.find fromID, g.find toID with
  | none, _ => .error (.msg ("could not find node " ++ fromID))
  | some _, none => .error (.msg ("could not find node " ++ toID))
  | some _, some _ =>
    if anyPath g (g.Nodes.length + 1) toID fromID then
      .error (.cyclic fromID toID)
    else
      .ok { g with Nodes := addChildTo g.Nodes fromID toID }

/-- Modelled from the spec: insertNodeAt fails if the parent does not exist
or the new identity already exists; on success it creates the node and adds
an edge from the parent to it. -/
def Graph.insertNodeAt (g : Graph) (parentID newID : String)
    (data : Option Dependency) : Except GoError Graph :=
  match g.find parentID with
  | none => .error (.msg ("parent node " ++ parentID ++ " does not exist"))
  | some _ =>
    match g.find newID with
    | some _ => .error (.msg ("node " ++ newID ++ " already exists"))
    | none =>
      .ok { g with Nodes := addChildTo g.Nodes parentID newID
                            ++ [(newID, newNode newID data)] }

/-- Modelled from the spec: removeNode fails on the root and on a node that
is not a current leaf of the remaining graph (one that still has outgoing
edges); on success it deletes the node and all edges pointing to it. -/
def Graph.removeNode (g : Graph) (id : String) : Except GoError Graph :=
  if id == g.RootID then
    .error (.msg "cannot remove root node")
  else
    match g.find id with
    | none => .error (.msg ("could not find node " ++ id))
    | some n =>
      if n.Childs = [] then
        .ok { g with Nodes := delNodeEdges g.Nodes id }
      else
        .error (.msg ("cannot remove node " ++ id ++ " because it is not a leaf"))

/-- Modelled from the spec: a depth-first walk from the given node,
following children in declaration order, returning the first node
encountered with no outgoing edges to nodes still present; if only the root
qualifies, the root identity is returned, signalling the drained graph.
The fuel exceeds every simple path length at the call site. -/
def Graph.getNextLeafAux (g : Graph) : Nat → String → String
  | 0, _ => g.RootID
  | fuel + 1, id =>
    match g.find id with
    | none => g.RootID
    | some n =>
      match n.Childs with
      | [] => id
      | c :: _ => g.getNextLeafAux fuel c

def Graph.getNextLeaf (g : Graph) (id : String) : String :=
  g.getNextLeafAux (g.Nodes.length + 1) id

/-! ## Identity resolver and source acquisition

Modelled from the spec (dependency/util is not part of the embedded
source). -/

/-- Modelled from the spec: normalize a source descriptor against the
declaring location — the remote reference is preferred; a local path is made
absolute against the base path. -/
def normalizeSource (basePath : String) (source : SourceConfig) : String :=
  if source.Git = "" then
    if source.Path.startsWith "/" then source.Path
    else basePath ++ "/" ++ source.Path
  else
    source.Git

/-- Modelled from the spec: util.GetDependencyID derives the stable identity
key of a dependency occurrence from its normalized source and its profile
(empty when unspecified). -/
def GetDependencyID (basePath : String) (source : SourceConfig)
    (profile : String) : String :=
  normalizeSource basePath source
    ++ (if profile = "" then "" else " - profile " ++ profile)

/-- Fixed configuration file name (constants.DefaultConfigPath). -/
def DefaultConfigPath : String := "devspace.yaml"

/-- Storage location of a generated config below a project directory
(generated.ConfigPath). -/
def GeneratedConfigPath : String := ".devspace/generated.yaml"

/-- filepath.Join for the paths assembled by the resolver. -/
def joinPath (a b : String) : String := a ++ "/" ++ b

/-! ## External collaborators

The side-effecting collaborators the resolver calls, supplied as an
environment (spec: configuration loader, source-acquisition utility,
generated-cache loader/saver, cluster-client and docker-client factories).
Fallible calls either fail with an environment-chosen error or succeed with
the environment-chosen result; factories that construct a value from their
arguments only get to choose whether they fail. -/
structure Env where
  /-- os.Getwd. -/
  getwd : Except GoError String
  /-- Acquire the dependency source; on success yields its local path. -/
  download : String → SourceConfig → String → Bool → Except GoError String
  /-- Failure injection for ConfigOptions.Clone; a successful clone of a
  pure value is the value itself. -/
  cloneErr : ConfigOptions → Option GoError
  /-- loader.NewConfigLoader(opts, log).ConfigPath(). -/
  loaderConfigPath : ConfigOptions → String
  /-- configLoader.Load() on the given (cloned) options. -/
  load : ConfigOptions → Except GoError Config
  /-- configLoader.LoadWithoutProfile() on the given (cloned) options. -/
  loadWithoutProfile : ConfigOptions → Except GoError Config
  /-- configLoader.ParseCommands() on the given (cloned) options. -/
  parseCommands : ConfigOptions → Except GoError (List CommandDecl)
  /-- generated.NewConfigLoader(profile).LoadFromPath(path). -/
  loadGenerated : String → String → Except GoError GenConfig
  /-- Failure injection for kubectl.NewClientFromContext(context,
  namespace, false, loader); success binds a client to exactly that context
  and namespace. -/
  newClientErr : String → String → Option GoError
  /-- docker.NewClient. -/
  dockerClient : Except GoError DockerClient
  /-- generatedSaver.Save: persist the given cache; none means success. -/
  save : GenConfig → Option GoError

/-- util.DownloadDependency.  Modelled from the spec: acquire the source at
the base path, honoring update; produce the dependency identity and local
path; failure is surfaced with the declared source for diagnostics. -/
def DownloadDependency (env : Env) (basePath : String) (source : SourceConfig)
    (profile : String) (update : Bool) : Except GoError (String × String) :=
  match env.download basePath source profile update with
  | .error e =>
    .error (wrap e ("unable to download dependency " ++ normalizeSource basePath source))
  | .ok localPath => .ok (GetDependencyID basePath source profile, localPath)

/-- The resolver state (struct resolver).  The kube loader, the generated
saver and the logger are carried by the environment. -/
structure Resolver where
  DependencyGraph : Graph
  BasePath : String := ""
  BaseConfig : Config
  BaseCache : GenConfig
  ConfigOptions : ConfigOptions
  AllowCyclic : Bool
  client : Option Client

/-! ## Materializer (resolveDependency) -/

/-- The cloned configuration-loading options as they stand when the
dependency configuration is loaded (resolver.go lines 181-197): the clone of
the resolver options with the declaration profile, the shared base cache,
the config path under the local path (declaration override or default file
name), and the base path of a loader over the original options. -/
def dependencyLoadOptions (env : Env) (r : Resolver) (dep : DependencyConfig)
    (localPath : String) : ConfigOptions :=
  { r.ConfigOptions with
      Profile := dep.Profile
      GeneratedConfig := some r.BaseCache
      ConfigPath :=
        if dep.Source.ConfigName = "" then joinPath localPath DefaultConfigPath
        else joinPath localPath dep.Source.ConfigName
      BasePath := env.loaderConfigPath r.ConfigOptions }

/-- The profile-aware configuration load (resolver.go lines 199-206):
LoadWithoutProfile when the cloned profile is empty, Load otherwise. -/
def loadDependencyConfig (env : Env) (r : Resolver) (dep : DependencyConfig)
    (localPath : String) : Except GoError Config :=
  let cloned := dependencyLoadOptions env r dep localPath
  if cloned.Profile = "" then env.loadWithoutProfile cloned else env.load cloned

/-- The client for the dependency (resolver.go lines 235-246): the resolver
client, unless the declaration names a namespace, in which case a new client
is built from the current context (empty without a client) bound to that
namespace. -/
def dependencyClient (env : Env) (r : Resolver) (dep : DependencyConfig) :
    Except GoError (Option Client) :=
  if dep.Namespace = "" then .ok r.client
  else
    match r.client with
    | none =>
      match env.newClientErr "" dep.Namespace with
      | some e => .error (wrap e "create new client")
      | none => .ok (some { currentContext := "", Namespace := dep.Namespace })
    | some cl =>
      match env.newClientErr cl.currentContext dep.Namespace with
      | some e => .error (wrap e "create new client")
      | none => .ok (some { currentContext := cl.currentContext, Namespace := dep.Namespace })

/-- resolveDependency: materialize one dependency declaration into a
Dependency record (resolver.go lines 174-275).  generated.InitDevSpaceConfig
initializes the profile entry inside the dependency generated config and
touches no field tracked here. -/
def resolveDependency (env : Env) (r : Resolver) (basePath : String)
    (dep : DependencyConfig) (update : Bool) : Except GoError Dependency :=
  match DownloadDependency env basePath dep.Source dep.Profile update with
  | .error e => .error e
  | .ok (ID, localPath) =>
    match env.cloneErr r.ConfigOptions with
    | some e => .error (wrap e "clone config options")
    | none =>
      let cloned := dependencyLoadOptions env r dep localPath
      match loadDependencyConfig env r dep localPath with
      | .error e => .error (wrap e ("loading config for dependency " ++ ID))
      | .ok dConfigLoaded =>
        match env.parseCommands cloned with
        | .error e => .error (wrap e "parse dependency commands")
        | .ok dCommands =>
          let dConfig : Config :=
            { dConfigLoaded with
                Dev := DevConfig.empty
                Images := if dep.SkipBuild = some true then [] else dConfigLoaded.Images }
          match env.loadGenerated dep.Profile (joinPath localPath GeneratedConfigPath) with
          | .error e =>
            .error (.msg ("Error loading generated config for dependency "
                           ++ ID ++ ": " ++ e.render))
          | .ok dGeneratedLoaded =>
            let dGeneratedConfig := { dGeneratedLoaded with ActiveProfile := dep.Profile }
            match dependencyClient env r dep with
            | .error e => .error e
            | .ok client =>
              match env.dockerClient with
              | .error e => .error (wrap e "create docker client")
              | .ok dockerClient =>
                .ok { ID := ID
                      LocalPath := localPath
                      Config := dConfig
                      Commands := dCommands
                      GeneratedConfig := dGeneratedConfig
                      DependencyConfig := dep
                      DependencyCache := r.BaseCache
                      kubeClient := client
                      registryClient :=
                        { config := dConfig, kubeClient := client, dockerClient := dockerClient }
                      buildController :=
                        { config := dConfig, generated := dGeneratedConfig, client := client }
                      deployController :=
                        { config := dConfig, generated := dGeneratedConfig, client := client }
                      generatedSaver := dep.Profile }

/-! ## Traversal driver -/

/-- resolveRecursive (resolver.go lines 131-172): walk the declarations in
order; an already-present identity only receives a new edge (a cycle error
being fatal exactly when cycles are not allowed), a fresh identity is
materialized, inserted below the parent and recursed into unless the
declaration ignores nested dependencies.  The extra fuel argument bounds the
recursion depth of the embedding; alongside the final graph, the list of
identities passed to the Materializer is returned in invocation order. -/
def resolveRecursive (env : Env) (r : Resolver) :
    Nat → Graph → String → String → List DependencyConfig → Bool →
    Except GoError (Graph × List String)
  | 0, _, _, _, _, _ => .error (.msg "resolution recursion fuel exhausted")
  | _ + 1, g, _, _, [], _ => .ok (g, [])
  | fuel + 1, g, basePath, parentID, dependencyConfig :: rest, update =>
    let ID := GetDependencyID basePath dependencyConfig.Source dependencyConfig.Profile
    match g.find ID with
    | some _ =>
      match g.addEdge parentID ID with
      | .error e =>
        if e.isCyclic then
          if !r.AllowCyclic then .error e
          else resolveRecursive env r fuel g basePath parentID rest update
        else .error e
      | .ok g1 => resolveRecursive env r fuel g1 basePath parentID rest update
    | none =>
      match resolveDependency env r basePath dependencyConfig update with
      | .error e => .error e
      | .ok dependency =>
        match g.insertNodeAt parentID ID (some dependency) with
        | .error e => .error (wrap e "insert node")
        | .ok g1 =>
          let nested :
              Except GoError (Graph × List String) :=
            if dependencyConfig.IgnoreDependencies = some true then .ok (g1, [])
            else if dependency.Config.Dependencies = [] then .ok (g1, [])
            else resolveRecursive env r fuel g1 dependency.LocalPath ID
                   dependency.Config.Dependencies update
          match nested with
          | .error e => .error e
          | .ok (g2, tr) =>
            match resolveRecursive env r fuel g2 basePath parentID rest update with
            | .error e => .error e
            | .ok (g3, tr2) => .ok (g3, ID :: (tr ++ tr2))

/-- buildDependencyQueue (resolver.go lines 111-129): repeatedly take
getNextLeaf from the root, collect its Dependency payload and remove it,
until getNextLeaf returns the root.  A node without a Dependency payload
taken here would be the failed Go type assertion.  The fuel exceeds the
iteration count at the call site. -/
def buildQueueAux : Nat → Graph → Except GoError (List Dependency)
  | 0, _ => .error (.msg "queue fuel exhausted")
  | fuel + 1, g =>
    if g.Nodes.length > 1 then
      let nextID := g.getNextLeaf g.RootID
      if nextID == g.RootID then .ok []
      else
        match g.find nextID with
        | none => .error (.msg ("could not find node " ++ nextID))
        | some n =>
          match n.Data with
          | none => .error (.msg "node payload is not a dependency")
          | some d =>
            match g.removeNode nextID with
            | .error e => .error e
            | .ok g1 =>
              match buildQueueAux fuel g1 with
              | .error e => .error e
              | .ok rest => .ok (d :: rest)
    else .ok []

def buildDependencyQueue (g : Graph) : Except GoError (List Dependency) :=
  buildQueueAux (g.Nodes.length + 1) g

/-- Resolve (resolver.go lines 87-109): resolve recursively from the working
directory and the root declarations; a cyclic error is surfaced verbatim,
any other recursive failure is wrapped; on success the shared base cache is
saved and the queue is drained.  The second component records, in order, the
caches passed to the generated saver during the call. -/
def Resolve (env : Env) (r : Resolver) (fuel : Nat) (update : Bool) :
    Except GoError (List Dependency) × List GenConfig :=
  match env.getwd with
  | .error e => (.error (wrap e "get current working directory"), [])
  | .ok cwd =>
    match resolveRecursive env r fuel r.DependencyGraph cwd
        r.DependencyGraph.RootID r.BaseConfig.Dependencies update with
    | .error e =>
      (if e.isCyclic then .error e
       else .error (wrap e "resolve dependencies recursive"), [])
    | .ok (g1, _) =>
      match env.save r.BaseCache with
      | some e => (.error e, [r.BaseCache])
      | none => (buildDependencyQueue g1, [r.BaseCache])

/-! ## Concrete scenarios

A benign environment in which every external call succeeds, parameterized by
the declaration table of each project configuration: a project stored at
/local/NAME declares the dependencies given by the table at NAME. -/

/-- A declaration with a remote source and no profile. -/
def declOf (u : String) : DependencyConfig := { Source := { Git := u } }

/-- An environment where downloading NAME lands in /local/NAME and the
configuration found there declares the table entries for NAME. -/
def tableEnv (table : String → List DependencyConfig) : Env :=
  { getwd := .ok "/work"
    download := fun _ src _ _ => .ok ("/local/" ++ src.Git)
    cloneErr := fun _ => none
    loaderConfigPath := fun opts => opts.ConfigPath
    load := fun _ => .ok {}
    loadWithoutProfile := fun opts =>
      .ok (if opts.ConfigPath = joinPath "/local/p" DefaultConfigPath then { Dependencies := table "p" }
           else if opts.ConfigPath = joinPath "/local/q" DefaultConfigPath then { Dependencies := table "q" }
           else if opts.ConfigPath = joinPath "/local/a" DefaultConfigPath then { Dependencies := table "a" }
           else if opts.ConfigPath = joinPath "/local/b" DefaultConfigPath then { Dependencies := table "b" }
           else {})
    parseCommands := fun _ => .ok []
    loadGenerated := fun _ _ => .ok { addr := 7 }
    newClientErr := fun _ _ => none
    dockerClient := .ok {}
    save := fun _ => none }

/-- Diamond declarations: p and q both declare r. -/
def diamondTable : String → List DependencyConfig :=
  fun name => if name = "p" ∨ name = "q" then [declOf "r"] else []

def envDiamond : Env := tableEnv diamondTable

/-- Cyclic declarations: a declares b, b declares a. -/
def cycleTable : String → List DependencyConfig :=
  fun name => if name = "a" then [declOf "b"] else if name = "b" then [declOf "a"] else []

def envCycle : Env := tableEnv cycleTable

/-- A resolver over the given root declarations. -/
def mkResolver (rootDeps : List DependencyConfig) (allowCyclic : Bool) : Resolver :=
  { DependencyGraph := newGraph (newNode "root" none)
    BaseConfig := { Dependencies := rootDeps }
    BaseCache := { addr := 1 }
    ConfigOptions := {}
    AllowCyclic := allowCyclic
    client := none }

def rDiamond : Resolver := mkResolver [declOf "p", declOf "q"] false

def rCycle : Resolver := mkResolver [declOf "a"] false

def rCycleAllow : Resolver := mkResolver [declOf "a"] true

/-- The configuration loaded for the diamond project p. -/
def cfgP : Config := { Dependencies := [declOf "r"] }

/-- The Dependency record the diamond run materializes for p. -/
def depP : Dependency :=
  { ID := "p"
    LocalPath := "/local/p"
    Config := cfgP
    Commands := []
    GeneratedConfig := { addr := 7 }
    DependencyConfig := declOf "p"
    DependencyCache := { addr := 1 }
    kubeClient := none
    registryClient := { config := cfgP, kubeClient := none, dockerClient := {} }
    buildController := { config := cfgP, generated := { addr := 7 }, client := none }
    deployController := { config := cfgP, generated := { addr := 7 }, client := none }
    generatedSaver := "" }

/-! ## Theorems -/

/-- C6: the identity computed for a dependency declaration is a function
only of its normalized source descriptor and its profile; the declaring
location passed as base path does not distinguish two declarations whose
normalized sources agree. -/
theorem getDependencyID_ignores_basePath (bp1 bp2 : String)
    (s1 s2 : SourceConfig) (profile : String)
    (h : normalizeSource bp1 s1 = normalizeSource bp2 s2) :
    GetDependencyID bp1 s1 profile = GetDependencyID bp2 s2 profile := by
  unfold GetDependencyID
  rw [h]

/-- C6 witness: two remote declarations of the same source from different
base paths receive the same identity. -/
theorem getDependencyID_ignores_basePath_witness :
    normalizeSource "/a" { Git := "https://example.com/r.git" }
      = normalizeSource "/b" { Git := "https://example.com/r.git" }
    ∧ GetDependencyID "/a" { Git := "https://example.com/r.git" } "dev"
      = GetDependencyID "/b" { Git := "https://example.com/r.git" } "dev" :=
  ⟨by decide,
   getDependencyID_ignores_basePath "/a" "/b" _ _ "dev" (by decide)⟩

/-- C10: every Dependency record aliases the shared base cache: its
DependencyCache field is the resolver BaseCache itself, and the cloned
config options used to load the dependency configuration point their
GeneratedConfig at that same BaseCache object. -/
theorem dependency_cache_aliased :
    (∀ (env : Env) (r : Resolver) (dep : DependencyConfig) (lp : String),
      (dependencyLoadOptions env r dep lp).GeneratedConfig = some r.BaseCache)
    ∧ (∀ (env : Env) (r : Resolver) (bp : String) (dep : DependencyConfig)
        (upd : Bool) (d : Dependency),
        resolveDependency env r bp dep upd = .ok d →
        d.DependencyCache = r.BaseCache) := by
  constructor
  · intro env r dep lp
    rfl
  · intro env r bp dep upd d h
    simp only [resolveDependency] at h
    repeat' split at h
    all_goals first
      | exact Except.noConfusion h
      | (injection h with h; subst h; rfl)

/-- C10 witness: the diamond run's record for p carries the resolver's base
cache itself. -/
theorem dependency_cache_aliased_witness :
    resolveDependency envDiamond rDiamond "/work" (declOf "p") false = .ok depP
    ∧ depP.DependencyCache = rDiamond.BaseCache :=
  ⟨by decide,
   dependency_cache_aliased.2 envDiamond rDiamond "/work" (declOf "p") false depP
     (by decide)⟩

/-- C7: every materialized Dependency has its development section replaced
by the empty dev config; its images section is emptied exactly when the
declaration sets SkipBuild, and is otherwise the loaded one. -/
theorem resolveDependency_clears_dev_and_images (env : Env) (r : Resolver)
    (bp : String) (dep : DependencyConfig) (upd : Bool) (d : Dependency)
    (h : resolveDependency env r bp dep upd = .ok d) :
    ∃ c, loadDependencyConfig env r dep d.LocalPath = .ok c
      ∧ d.Config.Dev = DevConfig.empty
      ∧ d.Config = { c with
                     Dev := DevConfig.empty
                     Images := if dep.SkipBuild = some true then [] else c.Images }
      ∧ (dep.SkipBuild = some true → d.Config.Images = [])
      ∧ (dep.SkipBuild ≠ some true → d.Config.Images = c.Images) := by
  cases hdl : DownloadDependency env bp dep.Source dep.Profile upd with
  | error e => simp [resolveDependency, hdl] at h
  | ok pr =>
  obtain ⟨ID, lp⟩ := pr
  cases hcl : env.cloneErr r.ConfigOptions with
  | some e => simp [resolveDependency, hdl, hcl] at h
  | none =>
  cases hload : loadDependencyConfig env r dep lp with
  | error e => simp [resolveDependency, hdl, hcl, hload] at h
  | ok cfg =>
  cases hcmds : env.parseCommands (dependencyLoadOptions env r dep lp) with
  | error e => simp [resolveDependency, hdl, hcl, hload, hcmds] at h
  | ok cmds =>
  cases hgen : env.loadGenerated dep.Profile (joinPath lp GeneratedConfigPath) with
  | error e => simp [resolveDependency, hdl, hcl, hload, hcmds, hgen] at h
  | ok gen =>
  cases hclient : dependencyClient env r dep with
  | error e => simp [resolveDependency, hdl, hcl, hload, hcmds, hgen, hclient] at h
  | ok cl =>
  cases hdk : env.dockerClient with
  | error e => simp [resolveDependency, hdl, hcl, hload, hcmds, hgen, hclient, hdk] at h
  | ok dk =>
  simp only [resolveDependency, hdl, hcl, hload, hcmds, hgen, hclient, hdk,
    Except.ok.injEq] at h
  subst h
  refine ⟨cfg, hload, rfl, rfl, ?_, ?_⟩
  · intro hskip
    simp [hskip]
  · intro hskip
    simp [hskip]

/-- C7 witness: the diamond record for p has the empty dev section and, with
SkipBuild unset, the images of the loaded configuration. -/
theorem resolveDependency_clears_dev_and_images_witness :
    depP.Config.Dev = DevConfig.empty ∧ depP.Config.Images = cfgP.Images := by
  obtain ⟨c, hc, hdev, -, -, himg⟩ :=
    resolveDependency_clears_dev_and_images envDiamond rDiamond "/work"
      (declOf "p") false depP (by decide)
  have h2 : loadDependencyConfig envDiamond rDiamond (declOf "p") depP.LocalPath
      = .ok cfgP := by decide
  rw [h2] at hc
  have hc2 : c = cfgP := (Except.ok.inj hc).symm
  exact ⟨hdev, by rw [himg (by decide), hc2]⟩

/-- C2: with cycle tolerance disabled, a cycle error from addEdge aborts
the step in which it occurs, is passed through intermediate recursion levels
unchanged, and is returned by Resolve verbatim — still carried by the
distinguished cyclic constructor, so the caller's type assertion succeeds —
with no dependency list. -/
theorem cyclic_error_propagated_verbatim :
    (∀ (env : Env) (r : Resolver) (fuel : Nat) (g : Graph)
        (bp pid : String) (upd : Bool) (d : DependencyConfig)
        (rest : List DependencyConfig) (n : Node) (e : GoError),
      r.AllowCyclic = false →
      g.find (GetDependencyID bp d.Source d.Profile) = some n →
      g.addEdge pid (GetDependencyID bp d.Source d.Profile) = .error e →
      e.isCyclic = true →
      resolveRecursive env r (fuel + 1) g bp pid (d :: rest) upd = .error e)
    ∧ (∀ (env : Env) (r : Resolver) (fuel : Nat) (g g1 : Graph)
        (bp pid : String) (upd : Bool) (d : DependencyConfig)
        (rest : List DependencyConfig) (dep : Dependency) (e : GoError),
      g.find (GetDependencyID bp d.Source d.Profile) = none →
      resolveDependency env r bp d upd = .ok dep →
      g.insertNodeAt pid (GetDependencyID bp d.Source d.Profile) (some dep) = .ok g1 →
      d.IgnoreDependencies ≠ some true →
      dep.Config.Dependencies ≠ [] →
      resolveRecursive env r fuel g1 dep.LocalPath
        (GetDependencyID bp d.Source d.Profile) dep.Config.Dependencies upd = .error e →
      resolveRecursive env r (fuel + 1) g bp pid (d :: rest) upd = .error e)
    ∧ (∀ (env : Env) (r : Resolver) (fuel : Nat) (upd : Bool)
        (cwd a b : String),
      env.getwd = .ok cwd →
      resolveRecursive env r fuel r.DependencyGraph cwd r.DependencyGraph.RootID
        r.BaseConfig.Dependencies upd = .error (.cyclic a b) →
      (Resolve env r fuel upd).1 = .error (.cyclic a b)) := by
  refine ⟨?_, ?_, ?_⟩
  · intro env r fuel g bp pid upd d rest n e hallow hfind hedge hcyc
    simp [resolveRecursive, hfind, hedge, hcyc, hallow]
  · intro env r fuel g g1 bp pid upd d rest dep e hfind hdep hins hig hne hnested
    simp [resolveRecursive, hfind, hdep, hins, hig, hne, hnested]
  · intro env r fuel upd cwd a b hwd hrec
    simp [Resolve, hwd, hrec, GoError.isCyclic]

/-- C2 witness: in the two-project cycle with tolerance disabled, Resolve
returns the cyclic error naming b and a verbatim. -/
theorem cyclic_error_propagated_verbatim_witness :
    (Resolve envCycle rCycle 10 false).1 = .error (.cyclic "b" "a") :=
  cyclic_error_propagated_verbatim.2.2 envCycle rCycle 10 false "/work" "b" "a"
    rfl (by decide)

/-- The graph root -> a -> b, in which a back edge from b to a closes a
cycle. -/
def gAB : Graph :=
  { RootID := "root"
    Nodes := [("root", { ID := "root", Data := none, Childs := ["a"] }),
              ("a", { ID := "a", Data := none, Childs := ["b"] }),
              ("b", { ID := "b", Data := none, Childs := [] })] }

def nodeA : Node := { ID := "a", Data := none, Childs := ["b"] }

/-- C3: with cycle tolerance enabled, a cycle error on the edge to an
already-existing node is swallowed — processing continues over the remaining
declarations with the graph unchanged, the edge not added — while an
addEdge failure that is not the cycle error aborts resolution regardless of
the tolerance flag. -/
theorem tolerated_cycle_swallowed :
    (∀ (env : Env) (r : Resolver) (fuel : Nat) (g : Graph)
        (bp pid : String) (upd : Bool) (d : DependencyConfig)
        (rest : List DependencyConfig) (n : Node) (e : GoError),
      r.AllowCyclic = true →
      g.find (GetDependencyID bp d.Source d.Profile) = some n →
      g.addEdge pid (GetDependencyID bp d.Source d.Profile) = .error e →
      e.isCyclic = true →
      resolveRecursive env r (fuel + 1) g bp pid (d :: rest) upd =
        resolveRecursive env r fuel g bp pid rest upd)
    ∧ (∀ (env : Env) (r : Resolver) (fuel : Nat) (g : Graph)
        (bp pid : String) (upd : Bool) (d : DependencyConfig)
        (rest : List DependencyConfig) (n : Node) (s : String),
      g.find (GetDependencyID bp d.Source d.Profile) = some n →
      g.addEdge pid (GetDependencyID bp d.Source d.Profile) = .error (.msg s) →
      resolveRecursive env r (fuel + 1) g bp pid (d :: rest) upd = .error (.msg s)) := by
  constructor
  · intro env r fuel g bp pid upd d rest n e hallow hfind hedge hcyc
    simp [resolveRecursive, hfind, hedge, hcyc, hallow]
  · intro env r fuel g bp pid upd d rest n s hfind hedge
    simp [resolveRecursive, hfind, hedge, GoError.isCyclic]

/-- C3 witness: in the graph root -> a -> b, a declaration of a processed
below b closes a cycle; with tolerance enabled the step is skipped and
processing continues with the rest. -/
theorem tolerated_cycle_swallowed_witness :
    resolveRecursive envCycle rCycleAllow 2 gAB "/local/b" "b" [declOf "a"] false =
      resolveRecursive envCycle rCycleAllow 1 gAB "/local/b" "b" [] false :=
  tolerated_cycle_swallowed.1 envCycle rCycleAllow 1 gAB "/local/b" "b" false
    (declOf "a") [] nodeA (.cyclic "b" "a") rfl (by decide) (by decide) rfl

/-- C5: the shared base cache is saved exactly once per Resolve call and
only after a fully successful descent: a working-directory or recursive
failure reaches the saver zero times and yields an error, a successful
descent reaches it exactly once with the base cache, and a failing save
makes Resolve return that error with no dependency list built. -/
theorem cache_saved_once_after_success :
    (∀ (env : Env) (r : Resolver) (fuel : Nat) (upd : Bool) (e : GoError),
      env.getwd = .error e → (Resolve env r fuel upd).2 = [])
    ∧ (∀ (env : Env) (r : Resolver) (fuel : Nat) (upd : Bool)
        (cwd : String) (e : GoError),
      env.getwd = .ok cwd →
      resolveRecursive env r fuel r.DependencyGraph cwd r.DependencyGraph.RootID
        r.BaseConfig.Dependencies upd = .error e →
      (Resolve env r fuel upd).2 = []
        ∧ ∃ e2, (Resolve env r fuel upd).1 = .error e2)
    ∧ (∀ (env : Env) (r : Resolver) (fuel : Nat) (upd : Bool)
        (cwd : String) (out : Graph × List String),
      env.getwd = .ok cwd →
      resolveRecursive env r fuel r.DependencyGraph cwd r.DependencyGraph.RootID
        r.BaseConfig.Dependencies upd = .ok out →
      (Resolve env r fuel upd).2 = [r.BaseCache])
    ∧ (∀ (env : Env) (r : Resolver) (fuel : Nat) (upd : Bool)
        (cwd : String) (out : Graph × List String) (e : GoError),
      env.getwd = .ok cwd →
      resolveRecursive env r fuel r.DependencyGraph cwd r.DependencyGraph.RootID
        r.BaseConfig.Dependencies upd = .ok out →
      env.save r.BaseCache = some e →
      (Resolve env r fuel upd).1 = .error e) := by
  refine ⟨?_, ?_, ?_, ?_⟩
  · intro env r fuel upd e hwd
    simp [Resolve, hwd]
  · intro env r fuel upd cwd e hwd hrec
    refine ⟨by simp [Resolve, hwd, hrec], ?_⟩
    cases hc : e.isCyclic with
    | true => exact ⟨e, by simp [Resolve, hwd, hrec, hc]⟩
    | false => exact ⟨wrap e "resolve dependencies recursive", by simp [Resolve, hwd, hrec, hc]⟩
  · intro env r fuel upd cwd out hwd hrec
    cases hs : env.save r.BaseCache with
    | some e => simp [Resolve, hwd, hrec, hs]
    | none => simp [Resolve, hwd, hrec, hs]
  · intro env r fuel upd cwd out e hwd hrec hs
    simp [Resolve, hwd, hrec, hs]

/-- The graph and materialization trace of the diamond descent. -/
def diamondRun : Graph × List String :=
  (resolveRecursive envDiamond rDiamond 10 rDiamond.DependencyGraph "/work"
    rDiamond.DependencyGraph.RootID rDiamond.BaseConfig.Dependencies
    false).toOption.getD (rDiamond.DependencyGraph, [])

/-- C5 witness: the diamond run saves the base cache exactly once. -/
theorem cache_saved_once_after_success_witness :
    (Resolve envDiamond rDiamond 10 false).2 = [rDiamond.BaseCache] :=
  cache_saved_once_after_success.2.2.1 envDiamond rDiamond 10 false "/work"
    diamondRun rfl (by decide)

/-- The current client of the namespace-override scenario. -/
def clC8 : Client := { currentContext := "ctx", Namespace := "ns1" }

/-- A resolver holding that client. -/
def rC8 : Resolver := { mkResolver [] false with client := some clC8 }

/-- A declaration whose namespace equals the current client's namespace. -/
def depC8 : DependencyConfig := { Source := { Git := "x" }, Namespace := "ns1" }

/-- An environment in which client construction fails. -/
def envC8 : Env := { envDiamond with newClientErr := fun _ _ => some (.msg "boom") }

/-- C8 counterexample: the declaration names exactly the namespace the
current client is already bound to, so under the claim the existing client
would be reused unchanged and no client construction could fail; the code
nevertheless attempts to construct a new client and materialization fails
with the client-creation error. -/
theorem dependency_client_counterexample :
    depC8.Namespace = clC8.Namespace
    ∧ rC8.client = some clC8
    ∧ resolveDependency envC8 rC8 "/work" depC8 false
        = .error (.msg "create new client: boom") :=
  ⟨rfl, rfl, by decide⟩

/-- C8 amended: whenever the declaration specifies a nonempty namespace —
even one equal to the current client's — a new client is constructed, bound
to that namespace and to the current context (the empty context when the
resolver has no client), and stored in the Dependency; only an empty
declared namespace reuses the resolver client unchanged. -/
theorem dependency_client_namespace :
    (∀ (env : Env) (r : Resolver) (dep : DependencyConfig),
      dep.Namespace = "" → dependencyClient env r dep = .ok r.client)
    ∧ (∀ (env : Env) (r : Resolver) (dep : DependencyConfig) (cl : Client),
      dep.Namespace ≠ "" → r.client = some cl →
      env.newClientErr cl.currentContext dep.Namespace = none →
      dependencyClient env r dep =
        .ok (some { currentContext := cl.currentContext, Namespace := dep.Namespace }))
    ∧ (∀ (env : Env) (r : Resolver) (dep : DependencyConfig),
      dep.Namespace ≠ "" → r.client = none →
      env.newClientErr "" dep.Namespace = none →
      dependencyClient env r dep =
        .ok (some { currentContext := "", Namespace := dep.Namespace }))
    ∧ (∀ (env : Env) (r : Resolver) (bp : String) (dep : DependencyConfig)
        (upd : Bool) (d : Dependency),
      resolveDependency env r bp dep upd = .ok d →
      ∃ cres, dependencyClient env r dep = .ok cres ∧ d.kubeClient = cres) := by
  refine ⟨?_, ?_, ?_, ?_⟩
  · intro env r dep hns
    simp [dependencyClient, hns]
  · intro env r dep cl hns hcl herr
    simp [dependencyClient, hns, hcl, herr]
  · intro env r dep hns hcl herr
    simp [dependencyClient, hns, hcl, herr]
  · intro env r bp dep upd d h
    cases hdl : DownloadDependency env bp dep.Source dep.Profile upd with
    | error e => simp [resolveDependency, hdl] at h
    | ok pr =>
    obtain ⟨ID, lp⟩ := pr
    cases hcl : env.cloneErr r.ConfigOptions with
    | some e => simp [resolveDependency, hdl, hcl] at h
    | none =>
    cases hload : loadDependencyConfig env r dep lp with
    | error e => simp [resolveDependency, hdl, hcl, hload] at h
    | ok cfg =>
    cases hcmds : env.parseCommands (dependencyLoadOptions env r dep lp) with
    | error e => simp [resolveDependency, hdl, hcl, hload, hcmds] at h
    | ok cmds =>
    cases hgen : env.loadGenerated dep.Profile (joinPath lp GeneratedConfigPath) with
    | error e => simp [resolveDependency, hdl, hcl, hload, hcmds, hgen] at h
    | ok gen =>
    cases hclient : dependencyClient env r dep with
    | error e => simp [resolveDependency, hdl, hcl, hload, hcmds, hgen, hclient] at h
    | ok cl =>
    cases hdk : env.dockerClient with
    | error e => simp [resolveDependency, hdl, hcl, hload, hcmds, hgen, hclient, hdk] at h
    | ok dk =>
    simp only [resolveDependency, hdl, hcl, hload, hcmds, hgen, hclient, hdk,
      Except.ok.injEq] at h
    subst h
    exact ⟨cl, rfl, rfl⟩

/-- C8 amended witness: a declaration with namespace ns2 under the rC8
client yields a fresh binding to ns2 preserving the context. -/
theorem dependency_client_namespace_witness :
    dependencyClient envDiamond rC8 { Source := { Git := "x" }, Namespace := "ns2" } =
      .ok (some { currentContext := "ctx", Namespace := "ns2" }) :=
  dependency_client_namespace.2.1 envDiamond rC8
    { Source := { Git := "x" }, Namespace := "ns2" } clC8 (by decide) rfl rfl

/-- An environment in which parsing the dependency commands fails. -/
def envC9 : Env := { envDiamond with parseCommands := fun _ => .error (.msg "boom") }

/-- An environment in which loading the dependency configuration fails. -/
def envC9load : Env :=
  { envDiamond with loadWithoutProfile := fun _ => .error (.msg "nope") }

/-- A declaration whose identity is a remote reference. -/
def depC9 : DependencyConfig := declOf "https://example.com/r.git"

/-- C9 counterexample: a failure to parse the dependency's commands aborts
materialization, but its error message is the fixed context
"parse dependency commands" with no trace of the dependency identity
anywhere in the message. -/
theorem materializer_error_context_counterexample :
    resolveDependency envC9 rDiamond "/work" depC9 false
      = .error (.msg "parse dependency commands: boom")
    ∧ ¬ strContains "parse dependency commands: boom" "https://example.com/r.git" :=
  ⟨by decide, by decide⟩

/-- C9 amended: every configuration-load failure in the Materializer aborts
with only an error; the main configuration load and the generated-cache load
are wrapped with the dependency identity attached to the message, while the
command-parse failure is wrapped with the fixed context
"parse dependency commands" without the identity. -/
theorem materializer_error_context :
    (∀ (env : Env) (r : Resolver) (bp : String) (dep : DependencyConfig)
        (upd : Bool) (ID lp : String) (e : GoError),
      DownloadDependency env bp dep.Source dep.Profile upd = .ok (ID, lp) →
      env.cloneErr r.ConfigOptions = none →
      loadDependencyConfig env r dep lp = .error e →
      resolveDependency env r bp dep upd
        = .error (wrap e ("loading config for dependency " ++ ID))
      ∧ strContains (wrap e ("loading config for dependency " ++ ID)).render ID)
    ∧ (∀ (env : Env) (r : Resolver) (bp : String) (dep : DependencyConfig)
        (upd : Bool) (ID lp : String) (cfg : Config) (e : GoError),
      DownloadDependency env bp dep.Source dep.Profile upd = .ok (ID, lp) →
      env.cloneErr r.ConfigOptions = none →
      loadDependencyConfig env r dep lp = .ok cfg →
      env.parseCommands (dependencyLoadOptions env r dep lp) = .error e →
      resolveDependency env r bp dep upd
        = .error (wrap e "parse dependency commands"))
    ∧ (∀ (env : Env) (r : Resolver) (bp : String) (dep : DependencyConfig)
        (upd : Bool) (ID lp : String) (cfg : Config) (cmds : List CommandDecl)
        (e : GoError),
      DownloadDependency env bp dep.Source dep.Profile upd = .ok (ID, lp) →
      env.cloneErr r.ConfigOptions = none →
      loadDependencyConfig env r dep lp = .ok cfg →
      env.parseCommands (dependencyLoadOptions env r dep lp) = .ok cmds →
      env.loadGenerated dep.Profile (joinPath lp GeneratedConfigPath) = .error e →
      resolveDependency env r bp dep upd
        = .error (.msg ("Error loading generated config for dependency "
                         ++ ID ++ ": " ++ e.render))
      ∧ strContains ("Error loading generated config for dependency "
                      ++ ID ++ ": " ++ e.render) ID) := by
  refine ⟨?_, ?_, ?_⟩
  · intro env r bp dep upd ID lp e hdl hcl hload
    refine ⟨by simp [resolveDependency, hdl, hcl, hload], ?_⟩
    refine ⟨"loading config for dependency ".data, (": " ++ e.render).data, ?_⟩
    simp [wrap, GoError.render, String.data_append]
  · intro env r bp dep upd ID lp cfg e hdl hcl hload hcmds
    simp [resolveDependency, hdl, hcl, hload, hcmds]
  · intro env r bp dep upd ID lp cfg cmds e hdl hcl hload hcmds hgen
    refine ⟨by simp [resolveDependency, hdl, hcl, hload, hcmds, hgen], ?_⟩
    refine ⟨"Error loading generated config for dependency ".data,
      (": " ++ e.render).data, ?_⟩
    simp [String.data_append]

/-- C9 amended witness: a failing configuration load surfaces an error whose
message carries the dependency identity. -/
theorem materializer_error_context_witness :
    resolveDependency envC9load rDiamond "/work" depC9 false
      = .error (wrap (.msg "nope")
          ("loading config for dependency " ++ "https://example.com/r.git"))
    ∧ strContains (wrap (.msg "nope")
          ("loading config for dependency " ++ "https://example.com/r.git")).render
        "https://example.com/r.git" :=
  materializer_error_context.1 envC9load rDiamond "/work" depC9 false
    "https://example.com/r.git" "/local/https://example.com/r.git" (.msg "nope")
    (by decide) rfl rfl

/-! ## Graph bookkeeping lemmas -/

theorem lookupNode_none_not_mem (l : List (String × Node)) (id : String) :
    lookupNode l id = none → id ∉ nodeKeys l := by
  induction l with
  | nil =>
    intro _ hm
    simp [nodeKeys] at hm
  | cons p rest ih =>
    intro h hm
    simp only [lookupNode] at h
    split at h
    · exact Option.noConfusion h
    · rename_i hne
      simp only [nodeKeys, List.map_cons, List.mem_cons] at hm
      rcases hm with hm | hm
      · exact hne (by rw [hm]; exact beq_self_eq_true p.1)
      · exact ih h hm

theorem nodeKeys_append (l1 l2 : List (String × Node)) :
    nodeKeys (l1 ++ l2) = nodeKeys l1 ++ nodeKeys l2 :=
  List.map_append _ l1 l2

theorem nodeKeys_addChildTo (l : List (String × Node)) (pid cid : String) :
    nodeKeys (addChildTo l pid cid) = nodeKeys l := by
  induction l with
  | nil => rfl
  | cons p rest ih =>
    simp only [addChildTo, nodeKeys, List.map_cons] at ih ⊢
    rw [ih]

theorem addEdge_keys (g g1 : Graph) (a b : String)
    (h : g.addEdge a b = .ok g1) : g1.keys = g.keys := by
  unfold Graph.addEdge at h
  split at h
  · exact Except.noConfusion h
  · exact Except.noConfusion h
  · split at h
    · exact Except.noConfusion h
    · injection h with h
      subst h
      simpa [Graph.keys] using nodeKeys_addChildTo g.Nodes a b

theorem insertNodeAt_keys (g g1 : Graph) (pid nid : String)
    (d : Option Dependency) (h : g.insertNodeAt pid nid d = .ok g1) :
    g.find nid = none ∧ g1.keys = g.keys ++ [nid] := by
  unfold Graph.insertNodeAt at h
  split at h
  · exact Except.noConfusion h
  · split at h
    · exact Except.noConfusion h
    · rename_i hfind
      injection h with h
      subst h
      refine ⟨hfind, ?_⟩
      show nodeKeys (addChildTo g.Nodes pid nid ++ [(nid, newNode nid d)])
        = nodeKeys g.Nodes ++ [nid]
      rw [nodeKeys_append, nodeKeys_addChildTo]
      rfl

/-- The Materializer-invocation trace of a successful descent is free of
duplicates, every identity it contains is new relative to the starting
graph and present in the final graph, and the node arena only grows. -/
theorem resolveRecursive_keys_trace :
    ∀ (fuel : Nat) (env : Env) (r : Resolver) (g : Graph) (bp pid : String)
      (deps : List DependencyConfig) (upd : Bool) (g2 : Graph) (tr : List String),
      resolveRecursive env r fuel g bp pid deps upd = .ok (g2, tr) →
      tr.Nodup
      ∧ (∀ x, x ∈ g.keys → x ∈ g2.keys)
      ∧ (∀ t ∈ tr, t ∉ g.keys ∧ t ∈ g2.keys) := by
  intro fuel
  induction fuel with
  | zero =>
    intro env r g bp pid deps upd g2 tr h
    exact Except.noConfusion h
  | succ fuel ih =>
    intro env r g bp pid deps upd g2 tr h
    cases deps with
    | nil =>
      simp only [resolveRecursive, Except.ok.injEq, Prod.mk.injEq] at h
      obtain ⟨hg, htr⟩ := h
      subst hg
      subst htr
      exact ⟨List.nodup_nil, fun x hx => hx, by simp⟩
    | cons d rest =>
      simp only [resolveRecursive] at h
      cases hfind : g.find (GetDependencyID bp d.Source d.Profile) with
      | some n =>
        simp only [hfind] at h
        cases hedge : g.addEdge pid (GetDependencyID bp d.Source d.Profile) with
        | error e =>
          simp only [hedge] at h
          cases hcyc : e.isCyclic with
          | false =>
            simp [hcyc] at h
          | true =>
            cases hallow : r.AllowCyclic with
            | false =>
              simp [hcyc, hallow] at h
            | true =>
              simp only [hcyc, hallow, Bool.not_true, Bool.false_eq_true,
                if_true, if_false] at h
              exact ih env r g bp pid rest upd g2 tr h
        | ok g1 =>
          simp only [hedge] at h
          have hkeys := addEdge_keys g g1 pid _ hedge
          obtain ⟨hnd, hmono, hfresh⟩ := ih env r g1 bp pid rest upd g2 tr h
          refine ⟨hnd, ?_, ?_⟩
          · intro x hx
            exact hmono x (by rw [hkeys]; exact hx)
          · intro t ht
            refine ⟨?_, (hfresh t ht).2⟩
            intro hmem
            exact (hfresh t ht).1 (by rw [hkeys]; exact hmem)
      | none =>
        simp only [hfind] at h
        cases hdep : resolveDependency env r bp d upd with
        | error e =>
          simp [hdep] at h
        | ok dep =>
          simp only [hdep] at h
          cases hins : g.insertNodeAt pid (GetDependencyID bp d.Source d.Profile)
              (some dep) with
          | error e =>
            simp [hins] at h
          | ok g1 =>
            simp only [hins] at h
            obtain ⟨-, hkeys1⟩ := insertNodeAt_keys g g1 pid _ (some dep) hins
            have hIDg : GetDependencyID bp d.Source d.Profile ∉ g.keys :=
              lookupNode_none_not_mem g.Nodes _ hfind
            have hIDg1 : GetDependencyID bp d.Source d.Profile ∈ g1.keys := by
              rw [hkeys1]
              simp
            have hsub1 : ∀ x, x ∈ g.keys → x ∈ g1.keys := by
              intro x hx
              rw [hkeys1]
              exact List.mem_append_left _ hx
            have hnest :
                ∀ g2' tr',
                  (if d.IgnoreDependencies = some true then Except.ok (g1, [])
                   else if dep.Config.Dependencies = [] then Except.ok (g1, [])
                   else resolveRecursive env r fuel g1 dep.LocalPath
                     (GetDependencyID bp d.Source d.Profile)
                     dep.Config.Dependencies upd) = .ok (g2', tr') →
                  tr'.Nodup ∧ (∀ x, x ∈ g1.keys → x ∈ g2'.keys)
                    ∧ (∀ t ∈ tr', t ∉ g1.keys ∧ t ∈ g2'.keys) := by
              intro g2' tr' hh
              split at hh
              · simp only [Except.ok.injEq, Prod.mk.injEq] at hh
                obtain ⟨h1, h2⟩ := hh
                subst h1
                subst h2
                exact ⟨List.nodup_nil, fun x hx => hx, by simp⟩
              · split at hh
                · simp only [Except.ok.injEq, Prod.mk.injEq] at hh
                  obtain ⟨h1, h2⟩ := hh
                  subst h1
                  subst h2
                  exact ⟨List.nodup_nil, fun x hx => hx, by simp⟩
                · exact ih env r g1 dep.LocalPath _ dep.Config.Dependencies upd g2' tr' hh
            cases hnn :
                (if d.IgnoreDependencies = some true then Except.ok (g1, ([] : List String))
                 else if dep.Config.Dependencies = [] then Except.ok (g1, [])
                 else resolveRecursive env r fuel g1 dep.LocalPath
                   (GetDependencyID bp d.Source d.Profile)
                   dep.Config.Dependencies upd) with
            | error e =>
              simp [hnn] at h
            | ok out =>
              obtain ⟨g2', tr'⟩ := out
              simp only [hnn] at h
              obtain ⟨hnd', hmono', hfresh'⟩ := hnest g2' tr' hnn
              cases hrest : resolveRecursive env r fuel g2' bp pid rest upd with
              | error e =>
                simp [hrest] at h
              | ok out2 =>
                obtain ⟨g3, tr2⟩ := out2
                simp only [hrest] at h
                simp only [Except.ok.injEq, Prod.mk.injEq] at h
                obtain ⟨hg, htr⟩ := h
                subst hg
                subst htr
                obtain ⟨hnd2, hmono2, hfresh2⟩ := ih env r g2' bp pid rest upd _ _ hrest
                have hIDg2' : GetDependencyID bp d.Source d.Profile ∈ g2'.keys :=
                  hmono' _ hIDg1
                refine ⟨?_, ?_, ?_⟩
                · rw [List.nodup_cons]
                  refine ⟨?_, List.Nodup.append hnd' hnd2 ?_⟩
                  · intro hmem
                    rcases List.mem_append.mp hmem with hmem | hmem
                    · exact (hfresh' _ hmem).1 hIDg1
                    · exact (hfresh2 _ hmem).1 hIDg2'
                  · intro t ht1 ht2
                    exact (hfresh2 t ht2).1 ((hfresh' t ht1).2)
                · intro x hx
                  exact hmono2 x (hmono' x (hsub1 x hx))
                · intro t ht
                  rcases List.mem_cons.mp ht with ht | ht
                  · subst ht
                    exact ⟨hIDg, hmono2 _ hIDg2'⟩
                  · rcases List.mem_append.mp ht with ht | ht
                    · refine ⟨fun hm => (hfresh' t ht).1 (hsub1 t hm),
                        hmono2 t (hfresh' t ht).2⟩
                    · refine ⟨fun hm => (hfresh2 t ht).1 (hmono' t (hsub1 t hm)),
                        (hfresh2 t ht).2⟩

/-- Whether the graph records an edge from p to c. -/
def edgeB (g : Graph) (p c : String) : Bool :=
  match g.find p with
  | none => false
  | some n => n.Childs.contains c

/-- C1: within one run the Materializer is invoked at most once per
identity — the invocation trace of any successful descent has no
duplicates — and in the diamond scenario (root declares p and q, each of
which declares r) r is materialized exactly once, with both p and q holding
an edge to the single shared r node. -/
theorem materializer_once_per_identity :
    (∀ (env : Env) (r : Resolver) (fuel : Nat) (g : Graph) (bp pid : String)
        (deps : List DependencyConfig) (upd : Bool) (g2 : Graph) (tr : List String),
      resolveRecursive env r fuel g bp pid deps upd = .ok (g2, tr) → tr.Nodup)
    ∧ diamondRun.2 = ["p", "r", "q"]
    ∧ edgeB diamondRun.1 "p" "r" = true
    ∧ edgeB diamondRun.1 "q" "r" = true := by
  refine ⟨?_, by decide, by decide, by decide⟩
  intro env r fuel g bp pid deps upd g2 tr h
  exact (resolveRecursive_keys_trace fuel env r g bp pid deps upd g2 tr h).1

/-- C1 witness: the diamond descent's materialization trace is
duplicate-free. -/
theorem materializer_once_per_identity_witness : diamondRun.2.Nodup :=
  materializer_once_per_identity.1 envDiamond rDiamond 10 rDiamond.DependencyGraph
    "/work" rDiamond.DependencyGraph.RootID rDiamond.BaseConfig.Dependencies false
    diamondRun.1 diamondRun.2 (by decide)

/-! ## Queue ordering lemmas -/

theorem lookupNode_some_mem (l : List (String × Node)) (x : String) (n : Node) :
    lookupNode l x = some n → (x, n) ∈ l := by
  induction l with
  | nil =>
    intro h
    exact Option.noConfusion h
  | cons p rest ih =>
    intro h
    simp only [lookupNode] at h
    split at h
    · rename_i hbeq
      injection h with h
      subst h
      have hx : p.1 = x := by simpa using hbeq
      subst hx
      exact List.mem_cons_self _ _
    · exact List.mem_cons_of_mem _ (ih h)

theorem lookup_mem_keys (l : List (String × Node)) (x : String) (n : Node)
    (h : lookupNode l x = some n) : x ∈ nodeKeys l :=
  List.mem_map.mpr ⟨(x, n), lookupNode_some_mem l x n h, rfl⟩

theorem lookupNode_mapSnd (f : Node → Node) (l : List (String × Node)) (x : String) :
    lookupNode (l.map (fun p => (p.1, f p.2))) x = (lookupNode l x).map f := by
  induction l with
  | nil => rfl
  | cons p rest ih =>
    by_cases hb : (p.1 == x) = true
    · simp [lookupNode, hb]
    · simp [lookupNode, hb, ih]

theorem lookupNode_filterKey_ne (l : List (String × Node)) (id x : String)
    (hne : x ≠ id) :
    lookupNode (l.filter (fun p => p.1 != id)) x = lookupNode l x := by
  induction l with
  | nil => rfl
  | cons p rest ih =>
    by_cases hp : p.1 = id
    · have h1 : (p.1 != id) = false := by simp [hp]
      have h2 : (p.1 == x) = false := by
        simp only [hp]
        exact beq_eq_false_iff_ne.mpr (fun hh => hne hh.symm)
      simp [List.filter_cons, h1, lookupNode, h2, ih]
    · have h1 : (p.1 != id) = true := by simp [hp]
      by_cases hg : (p.1 == x) = true
      · simp [List.filter_cons, h1, lookupNode, hg]
      · simp [List.filter_cons, h1, lookupNode, hg, ih]

theorem lookupNode_filterKey_self (l : List (String × Node)) (id : String) :
    lookupNode (l.filter (fun p => p.1 != id)) id = none := by
  induction l with
  | nil => rfl
  | cons p rest ih =>
    by_cases hp : p.1 = id
    · have h1 : (p.1 != id) = false := by simp [hp]
      simp [List.filter_cons, h1, ih]
    · have h1 : (p.1 != id) = true := by simp [hp]
      have h2 : (p.1 == id) = false := beq_eq_false_iff_ne.mpr hp
      simp [List.filter_cons, h1, lookupNode, h2, ih]

theorem lookup_delNodeEdges (l : List (String × Node)) (id x : String) :
    lookupNode (delNodeEdges l id) x =
      if x = id then none else (lookupNode l x).map (delChilds id) := by
  unfold delNodeEdges
  by_cases hx : x = id
  · rw [lookupNode_mapSnd (delChilds id), hx, lookupNode_filterKey_self]
    simp
  · rw [lookupNode_mapSnd (delChilds id), lookupNode_filterKey_ne l id x hx]
    simp [hx]

theorem removeNode_ok (g g1 : Graph) (id : String)
    (h : g.removeNode id = .ok g1) :
    (id == g.RootID) = false
    ∧ ∃ n, g.find id = some n ∧ n.Childs = []
        ∧ g1.RootID = g.RootID ∧ g1.Nodes = delNodeEdges g.Nodes id := by
  unfold Graph.removeNode at h
  split at h
  · exact Except.noConfusion h
  · rename_i hroot
    split at h
    · exact Except.noConfusion h
    · rename_i n hfind
      split at h
      · rename_i hchilds
        injection h with h
        subst h
        exact ⟨by simpa using hroot, n, hfind, hchilds, rfl, rfl⟩
      · exact Except.noConfusion h

/-- The edge relation of the graph, as a proposition. -/
def Edge (g : Graph) (p c : String) : Prop :=
  ∃ n, g.find p = some n ∧ c ∈ n.Childs

theorem edgeB_iff (g : Graph) (p c : String) : edgeB g p c = true ↔ Edge g p c := by
  unfold edgeB Edge
  cases hf : g.find p with
  | none => simp
  | some n => simp

theorem edge_delNodeEdges (g g1 : Graph) (id p c : String)
    (hg1 : g1.Nodes = delNodeEdges g.Nodes id)
    (hp : p ≠ id) (hc : c ≠ id) (h : Edge g p c) : Edge g1 p c := by
  obtain ⟨n, hfind, hmem⟩ := h
  refine ⟨delChilds id n, ?_, ?_⟩
  · show lookupNode g1.Nodes p = some (delChilds id n)
    rw [hg1, lookup_delNodeEdges]
    simp only [hp, if_false]
    rw [show Graph.find g p = lookupNode g.Nodes p from rfl] at hfind
    rw [hfind]
    rfl
  · simp [delChilds, List.mem_filter, hmem, hc]

/-- Payload consistency: every node payload carries the key of its node. -/
def wfPayloadB (g : Graph) : Bool :=
  g.Nodes.all (fun p =>
    match p.2.Data with
    | some dd => dd.ID == p.1
    | none => true)

theorem wfPayloadB_delNodeEdges (g g1 : Graph) (id : String)
    (hg1 : g1.Nodes = delNodeEdges g.Nodes id) (h : wfPayloadB g = true) :
    wfPayloadB g1 = true := by
  unfold wfPayloadB at h ⊢
  rw [hg1]
  rw [List.all_eq_true] at h ⊢
  intro q hq
  unfold delNodeEdges at hq
  obtain ⟨p, hp, rfl⟩ := List.mem_map.mp hq
  have hp2 := (List.mem_filter.mp hp).1
  simpa [delChilds] using h p hp2

theorem mem_keys_lookup (l : List (String × Node)) (x : String) :
    x ∈ nodeKeys l → ∃ n, lookupNode l x = some n := by
  induction l with
  | nil =>
    intro h
    simp [nodeKeys] at h
  | cons p rest ih =>
    intro h
    by_cases hb : (p.1 == x) = true
    · exact ⟨p.2, by simp [lookupNode, hb]⟩
    · simp only [nodeKeys, List.map_cons, List.mem_cons] at h
      rcases h with h | h
      · exact absurd (by rw [h]; exact beq_self_eq_true p.1) hb
      · obtain ⟨n, hn⟩ := ih h
        exact ⟨n, by simp [lookupNode, hb, hn]⟩

theorem keys_delNodeEdges_subset (g g1 : Graph) (id : String)
    (hg1 : g1.Nodes = delNodeEdges g.Nodes id) :
    ∀ x, x ∈ g1.keys → x ∈ g.keys := by
  intro x hx
  obtain ⟨n, hn⟩ := mem_keys_lookup g1.Nodes x hx
  rw [hg1, lookup_delNodeEdges] at hn
  by_cases hxid : x = id
  · rw [if_pos hxid] at hn
    exact Option.noConfusion hn
  · rw [if_neg hxid] at hn
    cases hfx : lookupNode g.Nodes x with
    | none =>
      rw [hfx] at hn
      exact Option.noConfusion hn
    | some m => exact lookup_mem_keys g.Nodes x m hfx

/-- Ordering invariant of the drain loop: every identity extracted by a
successful drain was present and is not the root, and for every edge of the
graph at the start of the drain the child is extracted strictly before the
parent. -/
theorem buildQueueAux_order :
    ∀ (fuel : Nat) (g : Graph) (ds : List Dependency),
      wfPayloadB g = true →
      buildQueueAux fuel g = .ok ds →
      (∀ i, i ∈ ds.map Dependency.ID → i ∈ g.keys ∧ i ≠ g.RootID)
      ∧ (∀ p c, Edge g p c → ∀ (k : Nat), (ds.map Dependency.ID)[k]? = some p →
          ∃ j, j < k ∧ (ds.map Dependency.ID)[j]? = some c) := by
  intro fuel
  induction fuel with
  | zero =>
    intro g ds hwf h
    exact Except.noConfusion h
  | succ fuel ih =>
    intro g ds hwf h
    simp only [buildQueueAux] at h
    by_cases hlen : g.Nodes.length > 1
    case neg =>
      rw [if_neg hlen] at h
      injection h with h
      subst h
      exact ⟨by simp, by simp⟩
    case pos =>
      rw [if_pos hlen] at h
      by_cases hnext : (g.getNextLeaf g.RootID == g.RootID) = true
      · rw [if_pos hnext] at h
        injection h with h
        subst h
        exact ⟨by simp, by simp⟩
      · rw [if_neg hnext] at h
        cases hfind : g.find (g.getNextLeaf g.RootID) with
        | none => simp [hfind] at h
        | some n =>
          simp only [hfind] at h
          cases hdata : n.Data with
          | none => simp [hdata] at h
          | some dd =>
            simp only [hdata] at h
            cases hrem : g.removeNode (g.getNextLeaf g.RootID) with
            | error e => simp [hrem] at h
            | ok g1 =>
              simp only [hrem] at h
              cases hq : buildQueueAux fuel g1 with
              | error e => simp [hq] at h
              | ok rest =>
                simp only [hq, Except.ok.injEq] at h
                subst h
                obtain ⟨-, n', hfind', hchilds, hg1root, hg1nodes⟩ :=
                  removeNode_ok g g1 _ hrem
                have heqn : n = n' := by
                  rw [hfind] at hfind'
                  exact Option.some.inj hfind'
                have hchilds2 : n.Childs = [] := by
                  rw [← heqn] at hchilds
                  exact hchilds
                have hwf1 : wfPayloadB g1 = true :=
                  wfPayloadB_delNodeEdges g g1 _ hg1nodes hwf
                obtain ⟨ihmem, ihord⟩ := ih g1 rest hwf1 hq
                have hddID : dd.ID = g.getNextLeaf g.RootID := by
                  have hmem := lookupNode_some_mem g.Nodes _ n hfind
                  have hall := (List.all_eq_true.mp hwf) _ hmem
                  rw [hdata] at hall
                  simpa using hall
                have hnextmem : g.getNextLeaf g.RootID ∈ g.keys :=
                  lookup_mem_keys _ _ _ hfind
                have hnextne : g.getNextLeaf g.RootID ≠ g.RootID := by
                  simpa using hnext
                have hnotin1 : g.getNextLeaf g.RootID ∉ g1.keys := by
                  apply lookupNode_none_not_mem
                  show lookupNode g1.Nodes _ = none
                  rw [hg1nodes, lookup_delNodeEdges]
                  simp
                constructor
                · intro i hi
                  rw [List.map_cons, List.mem_cons] at hi
                  rcases hi with hi | hi
                  · rw [hi, hddID]
                    exact ⟨hnextmem, hnextne⟩
                  · obtain ⟨h1, h2⟩ := ihmem i hi
                    refine ⟨keys_delNodeEdges_subset g g1 _ hg1nodes i h1, ?_⟩
                    rw [← hg1root]
                    exact h2
                · intro p c hedge k hk
                  rw [List.map_cons] at hk
                  cases k with
                  | zero =>
                    rw [List.getElem?_cons_zero] at hk
                    injection hk with hk
                    exfalso
                    obtain ⟨nn, hfnn, hcm⟩ := hedge
                    rw [← hk, hddID, hfind] at hfnn
                    rw [(Option.some.inj hfnn).symm, hchilds2] at hcm
                    exact List.not_mem_nil c hcm
                  | succ j0 =>
                    rw [List.getElem?_cons_succ] at hk
                    have hpmem : p ∈ rest.map Dependency.ID := List.getElem?_mem hk
                    have hpne : p ≠ g.getNextLeaf g.RootID :=
                      fun hh => hnotin1 (hh ▸ (ihmem p hpmem).1)
                    by_cases hceq : c = g.getNextLeaf g.RootID
                    · refine ⟨0, Nat.succ_pos _, ?_⟩
                      rw [List.map_cons, List.getElem?_cons_zero, hddID, hceq]
                    · have hedge1 : Edge g1 p c :=
                        edge_delNodeEdges g g1 _ p c hg1nodes hpne hceq hedge
                      obtain ⟨j, hj, hjc⟩ := ihord p c hedge1 j0 hk
                      refine ⟨j + 1, Nat.succ_lt_succ hj, ?_⟩
                      rw [List.map_cons, List.getElem?_cons_succ]
                      exact hjc

/-- C4: the list a successful drain returns respects leaf-before-parent
order — for every edge parent -> child of the graph at the start of the
drain, the child's Dependency appears strictly before the parent's in the
returned list (the list being produced by buildDependencyQueue, which
repeatedly takes getNextLeaf from the root and removes it, stopping when
getNextLeaf returns the root) — and the root contributes no element. -/
theorem leaf_before_parent_order (g : Graph) (ds : List Dependency)
    (hwf : wfPayloadB g = true)
    (h : buildDependencyQueue g = .ok ds) :
    g.RootID ∉ ds.map Dependency.ID
    ∧ (∀ p c, edgeB g p c = true → ∀ (k : Nat), (ds.map Dependency.ID)[k]? = some p →
        ∃ j, j < k ∧ (ds.map Dependency.ID)[j]? = some c) := by
  obtain ⟨hmem, hord⟩ := buildQueueAux_order (g.Nodes.length + 1) g ds hwf h
  refine ⟨fun hmemroot => (hmem _ hmemroot).2 rfl, ?_⟩
  intro p c he k hk
  exact hord p c ((edgeB_iff g p c).mp he) k hk

/-- The queue drained from the diamond graph. -/
def diamondQueue : List Dependency :=
  (buildDependencyQueue diamondRun.1).toOption.getD []

/-- C4 witness: in the drained diamond graph, r (the shared child of p and
q) appears at an index strictly below p's index 1, and the root contributes
nothing. -/
theorem leaf_before_parent_order_witness :
    diamondRun.1.RootID ∉ diamondQueue.map Dependency.ID
    ∧ ∃ j, j < 1 ∧ (diamondQueue.map Dependency.ID)[j]? = some "r" := by
  obtain ⟨hroot, hord⟩ :=
    leaf_before_parent_order diamondRun.1 diamondQueue (by decide) (by decide)
  exact ⟨hroot, hord "p" "r" (by decide) 1 (by decide)⟩

end DevSpace
